import Mathlib

/-
Verification of the graph-influence scoring engine in
`apps/webapp/app/[modelId]/graph/score.worker.ts`.

The engine is embedded shallowly: JavaScript numbers are modelled as exact
rationals (`Rat`); the idealized real-valued semantics of the floating-point
code.  Mutable `number[][]` matrices become `List (List Rat)` transformed
functionally.  JavaScript exceptions are modelled with `Except`:
`JsError.typeError` stands for the `TypeError` thrown when `A[0].length` is
read on an empty array, and `JsError.convergence msg` for the explicit
`throw new Error(...)` in `computeInfluence`.  One deliberate divergence of the
rational model: in Lean `x / 0 = 0`, while JS produces `Infinity` for
`x / 0` with `x ≠ 0` (which is not `NaN`); the `Number.isNaN` coercions are
therefore modelled as a test for the `0 / 0` case, the only case in which the
JS result is `NaN` for finite operands.
-/

attribute [local semireducible] Rat.add Rat.sub Rat.mul Rat.inv

deriving instance DecidableEq for Except

namespace Score

/-- Graph node, following the fields of `CLTGraphNode` that the worker reads
(`node_id`, `feature_type`, `layer`, `ctx_idx`, `feature`, `token_prob`). -/
structure CLTGraphNode where
  node_id : String
  feature_type : String
  layer : String
  ctx_idx : Int
  feature : Option Int
  token_prob : Rat
deriving DecidableEq, Repr

/-- Graph edge, following `CLTGraphLink`: `source`/`target` are node ids. -/
structure CLTGraphLink where
  source : String
  target : String
  weight : Rat
deriving DecidableEq, Repr

/-- The `WorkerGraph` payload: `{ nodes, links }`. -/
structure WorkerGraph where
  nodes : List CLTGraphNode
  links : List CLTGraphLink
deriving DecidableEq, Repr

/-- Matrices are lists of rows of rationals. -/
abbrev Mat := List (List Rat)

/-- JavaScript exceptions thrown by the engine. -/
inductive JsError where
  | typeError
  | convergence (msg : String)
deriving DecidableEq, Repr

/-- The pair of scores returned by `computeGraphScoresFromGraphData`. -/
structure ScoreResult where
  replacementScore : Rat
  completenessScore : Rat
deriving DecidableEq, Repr

/-- Read entry `M[r][c]`, 0 outside the allocated rectangle. -/
def entry (M : Mat) (r c : Nat) : Rat := (M.getD r []).getD c 0

/-- Row `r` of the matrix (`[]` out of range). -/
def rowD (M : Mat) (r : Nat) : List Rat := M.getD r []

/-- Write entry `M[r][c] := v` (no-op out of range; always in range here). -/
def setEntry (M : Mat) (r c : Nat) (v : Rat) : Mat :=
  M.set r ((M.getD r []).set c v)

/-- The `n × n` all-zero matrix (`Array(n).fill(null).map(() => Array(n).fill(0))`). -/
def zeroMatrix (n : Nat) : Mat := List.replicate n (List.replicate n 0)

/-- `ε = 1e-10` from `normalizeMatrix`. -/
def eps : Rat := 1 / 10000000000

/-- One row of `normalizeMatrix`: absolute values divided by
`max(Σ |row|, 1e-10)`. -/
def normalizeRow (row : List Rat) : List Rat :=
  let absRow := row.map (fun v => |v|)
  let sum := absRow.sum
  let clampedSum := max sum eps
  absRow.map (fun v => v / clampedSum)

/-- `normalizeMatrix` from the worker: row-normalize by absolute value. -/
def normalizeMatrix (M : Mat) : Mat := M.map normalizeRow

/-- `newInfluence[j] = Σ_i v[i] * A[i][j]` for `j < n`
(the inner double loop of `computeInfluence`). -/
def vecMat (v : List Rat) (A : Mat) (n : Nat) : List Rat :=
  (List.range n).map (fun j =>
    ((List.range v.length).map (fun i => v.getD i 0 * entry A i j)).sum)

/-- Componentwise vector addition (`influence[i] += currentInfluence[i]`). -/
def addVec (a b : List Rat) : List Rat := List.zipWith (fun x y => x + y) a b

/-- The `while` loop of `computeInfluence`.  `fuel = maxIter - iterations`;
the loop throws exactly when the iterate is still non-zero with
`iterations = maxIter` (at which point the message interpolates
`iterations = maxIter`). -/
def influenceLoop (A : Mat) (n maxIter : Nat) :
    Nat → List Rat → List Rat → Except JsError (List Rat)
  | fuel, current, acc =>
    if current.any (fun v => decide (v ≠ 0)) then
      match fuel with
      | 0 =>
        Except.error (JsError.convergence
          ("Influence computation failed to converge after " ++
            toString maxIter ++ " iterations"))
      | Nat.succ fuel' =>
        let nw := vecMat current A n
        influenceLoop A n maxIter fuel' nw (addVec acc nw)
    else Except.ok acc

/-- `computeInfluence(A, logitWeights, maxIter)`.  Reading `A[0].length` on an
empty `A` throws a `TypeError` in JS, modelled by `JsError.typeError`. -/
def computeInfluence (A : Mat) (logitWeights : List Rat) (maxIter : Nat) :
    Except JsError (List Rat) :=
  match A with
  | [] => Except.error JsError.typeError
  | row0 :: _ =>
    let n := row0.length
    let seed := vecMat logitWeights A n
    influenceLoop A n maxIter maxIter seed seed

/-- `featureTypeOrder` from `reconstructAdjacencyMatrix`. -/
def featureTypeOrder : List String :=
  ["cross layer transcoder", "mlp reconstruction error", "embedding", "logit"]

/-- Feature-type priority: index in `featureTypeOrder`, or its length (4) for
unknown types (the JS `indexOf === -1` fixup). -/
def typePriority (ft : String) : Int := (featureTypeOrder.indexOf ft : Int)

/-- Longest digit prefix of a character list. -/
def takeDigits : List Char → List Char
  | [] => []
  | c :: cs => if c.isDigit then c :: takeDigits cs else []

/-- Value of a digit list. -/
def digitsToNat (l : List Char) : Nat :=
  l.foldl (fun acc c => acc * 10 + (c.toNat - 48)) 0

/-- `parseInt(s, 10)`: optional sign, then the longest digit prefix;
`none` models `NaN`. -/
def jsParseInt (s : String) : Option Int :=
  match s.data with
  | '-' :: rest =>
    match takeDigits rest with
    | [] => none
    | ds => some (-(digitsToNat ds : Int))
  | '+' :: rest =>
    match takeDigits rest with
    | [] => none
    | ds => some ((digitsToNat ds : Int))
  | l =>
    match takeDigits l with
    | [] => none
    | ds => some ((digitsToNat ds : Int))

/-- Layer sort number: the embedding sentinel `"E"` maps to 0, a non-numeric
layer to 999, otherwise the parsed integer. -/
def layerNum (layer : String) : Int :=
  if layer = "E" then 0
  else match jsParseInt layer with
    | none => 999
    | some k => k

/-- `getSortKey`: `[typePriority, layerNum, ctx_idx, feature || 0]`. -/
def getSortKey (n : CLTGraphNode) : Int × Int × Int × Int :=
  (typePriority n.feature_type, layerNum n.layer, n.ctx_idx, n.feature.getD 0)

/-- Lexicographic comparison of sort keys: the JS comparator loop returns a
non-positive number exactly when this relation holds. -/
def keyLe (a b : Int × Int × Int × Int) : Prop :=
  a.1 < b.1 ∨ (a.1 = b.1 ∧ (a.2.1 < b.2.1 ∨ (a.2.1 = b.2.1 ∧
    (a.2.2.1 < b.2.2.1 ∨ (a.2.2.1 = b.2.2.1 ∧ a.2.2.2 ≤ b.2.2.2)))))

instance : DecidableRel keyLe := fun a b => by
  unfold keyLe
  exact inferInstance

/-- Node comparison used by the stable `sort` call. -/
def nodeLE (a b : CLTGraphNode) : Prop := keyLe (getSortKey a) (getSortKey b)

instance : DecidableRel nodeLE := fun a b => by
  unfold nodeLE
  exact inferInstance

instance : IsTotal CLTGraphNode nodeLE :=
  ⟨fun a b => by unfold nodeLE keyLe; omega⟩

instance : IsTrans CLTGraphNode nodeLE :=
  ⟨fun a b c => by unfold nodeLE keyLe; omega⟩

/-- The canonical node order: a stable sort of the nodes by `getSortKey`
(JS `Array.prototype.sort` is stable). -/
def sortNodes (nodes : List CLTGraphNode) : List CLTGraphNode :=
  List.insertionSort nodeLE nodes

/-- `nodeIdToIdx` lookup: the `forEach` overwrite makes the last occurrence of
an id win. -/
def nodeIdToIdx (sNodes : List CLTGraphNode) (id : String) : Option Nat :=
  sNodes.enum.foldl
    (fun acc p => if p.2.node_id = id then some p.1 else acc) none

/-- One `edges.forEach` step of `reconstructAdjacencyMatrix`: if both
endpoints resolve, write `adjacencyMatrix[dstIdx][srcIdx] = edge.weight`
(plain assignment: a later edge on the same ordered pair overwrites an
earlier one); otherwise the edge is silently dropped. -/
def adjStep (sortedNodes : List CLTGraphNode) (M : Mat) (e : CLTGraphLink) : Mat :=
  match nodeIdToIdx sortedNodes e.source, nodeIdToIdx sortedNodes e.target with
  | some srcIdx, some dstIdx => setEntry M dstIdx srcIdx e.weight
  | _, _ => M

/-- `reconstructAdjacencyMatrix`: sort the nodes, then write each resolvable
edge into the zero-initialized `n × n` matrix. -/
def reconstructAdjacencyMatrix (nodes : List CLTGraphNode)
    (edges : List CLTGraphLink) : Mat × List CLTGraphNode :=
  let sortedNodes := sortNodes nodes
  let nNodes := sortedNodes.length
  let adjacencyMatrix := edges.foldl (adjStep sortedNodes) (zeroMatrix nNodes)
  (adjacencyMatrix, sortedNodes)

/-- The `(layer, ctx_idx)` key string used by the merge pass. -/
def nodeKey (n : CLTGraphNode) : String := n.layer ++ "|" ++ toString n.ctx_idx

/-- `errorIndexByKey` lookup: the `forEach` overwrite makes the
reconstruction-error node with the highest index win for each key. -/
def errorIndexByKey (sNodes : List CLTGraphNode) (k : String) : Option Nat :=
  sNodes.enum.foldl
    (fun acc p =>
      if p.2.feature_type = "mlp reconstruction error" ∧ nodeKey p.2 = k
      then some p.1 else acc)
    none

/-- Zero the first `k` entries of a row (the row loop of `zeroRowAndColumn`
runs `c` over `0..adjacencyMatrix.length`). -/
def zeroRowFirst (row : List Rat) (k : Nat) : List Rat :=
  row.enum.map (fun p => if p.1 < k then 0 else p.2)

/-- `zeroRowAndColumn`: zero row `idx` and column `idx`. -/
def zeroRowAndColumn (M : Mat) (idx : Nat) : Mat :=
  M.enum.map (fun p =>
    (if p.1 = idx then zeroRowFirst p.2 M.length else p.2).set idx 0)

/-- The column merge `A[r][errorIdx] += A[r][featureIdx]` for every row `r`. -/
def addColInto (M : Mat) (errorIdx featureIdx : Nat) : Mat :=
  M.map (fun row =>
    row.set errorIdx (row.getD errorIdx 0 + row.getD featureIdx 0))

/-- One step of the merge pass, for the node at index `p.1`. -/
def mergeStep (sNodes : List CLTGraphNode) (pinnedIds : List String)
    (M : Mat) (p : Nat × CLTGraphNode) : Mat :=
  if p.2.feature_type ≠ "cross layer transcoder" then M
  else if pinnedIds.contains p.2.node_id then M
  else
    match errorIndexByKey sNodes (nodeKey p.2) with
    | none => zeroRowAndColumn M p.1
    | some errorIdx => zeroRowAndColumn (addColInto M errorIdx p.1) p.1

/-- The whole merge pass (`sortedNodes.forEach((node, featureIdx) => ...)`) . -/
def mergePass (sNodes : List CLTGraphNode) (pinnedIds : List String)
    (M : Mat) : Mat :=
  sNodes.enum.foldl (mergeStep sNodes pinnedIds) M

/-- Number of nodes of a given `feature_type` among the sorted nodes. -/
def countType (sNodes : List CLTGraphNode) (ft : String) : Nat :=
  (sNodes.filter (fun n => n.feature_type == ft)).length

/-- `v.slice(a, b)` summed. -/
def sliceSum (v : List Rat) (a b : Nat) : Rat :=
  ((v.drop a).take (b - a)).sum

/-- The `logitWeights` vector: zeros, with the `token_prob` of the `i`-th
logit node written at position `n - nLogits + i`. -/
def buildLogitWeights (sNodes : List CLTGraphNode) (n : Nat) : List Rat :=
  let nLogits := countType sNodes "logit"
  let sortedLogitProbs :=
    (sNodes.filter (fun nd => nd.feature_type == "logit")).map
      (fun nd => nd.token_prob)
  (List.range nLogits).foldl
    (fun lw i => lw.set (n - nLogits + i) (sortedLogitProbs.getD i 0))
    (List.replicate n 0)

/-- `computeGraphScoresFromGraphData(graphData, pinnedIds)`. -/
def computeGraphScoresFromGraphData (graphData : WorkerGraph)
    (pinnedIds : List String) : Except JsError ScoreResult :=
  let res := reconstructAdjacencyMatrix graphData.nodes graphData.links
  let sortedNodes := res.2
  let adjacencyMatrix :=
    if 0 < pinnedIds.length then mergePass sortedNodes pinnedIds res.1 else res.1
  let nFeatures := countType sortedNodes "cross layer transcoder"
  let nErrorNodes := countType sortedNodes "mlp reconstruction error"
  let nTokens := countType sortedNodes "embedding"
  let errorStart := nFeatures
  let errorEnd := errorStart + nErrorNodes
  let tokenEnd := errorEnd + nTokens
  let logitWeights := buildLogitWeights sortedNodes adjacencyMatrix.length
  let normalizedMatrix := normalizeMatrix adjacencyMatrix
  match computeInfluence normalizedMatrix logitWeights 1000 with
  | Except.error e => Except.error e
  | Except.ok nodeInfluence =>
    let tokenInfluence := sliceSum nodeInfluence errorEnd tokenEnd
    let errorInfluence := sliceSum nodeInfluence errorStart errorEnd
    let replacementScore :=
      if tokenInfluence = 0 ∧ tokenInfluence + errorInfluence = 0 then 0
      else tokenInfluence / (tokenInfluence + errorInfluence)
    let nonErrorFractions :=
      normalizedMatrix.map (fun row => 1 - sliceSum row errorStart errorEnd)
    let outputInfluence := List.zipWith (fun x y => x + y) nodeInfluence logitWeights
    let cNum := (List.zipWith (fun x y => x * y) nonErrorFractions outputInfluence).sum
    let cDen := outputInfluence.sum
    let completenessScore := if cNum = 0 ∧ cDen = 0 then 0 else cNum / cDen
    Except.ok ⟨replacementScore, completenessScore⟩

/-! ### Specification-level definitions used to state properties -/

/-- `k`-fold application of one influence-propagation step
(`v ↦ v ·_row A`) to a vector. -/
def iterApply (A : Mat) (n : Nat) : Nat → List Rat → List Rat
  | 0, v => v
  | Nat.succ k, v => vecMat (iterApply A n k v) A n

/-- Sum of the iterates `1, …, k` of the propagation step starting from `v`:
the amount the loop adds to its running total over `k` further iterations. -/
def tailSum (A : Mat) (n : Nat) : Nat → List Rat → List Rat
  | 0, _ => List.replicate n 0
  | Nat.succ k, v =>
    let nw := vecMat v A n
    addVec nw (tailSum A n k nw)

/-- An `n × n` matrix as a list of `n` rows of length `n`. -/
def SquareMat (M : Mat) (n : Nat) : Prop :=
  M.length = n ∧ ∀ row ∈ M, row.length = n

/-- Index `m` of the node list holds a reconstruction-error node with
merge key `k`. -/
def errAt (sNodes : List CLTGraphNode) (m : Nat) (k : String) : Bool :=
  match sNodes[m]? with
  | some nd => nd.feature_type == "mlp reconstruction error" && nodeKey nd == k
  | none => false

/-- All edges of the list that resolve to source index `s` and target
index `t` under the node-id lookup. -/
def matchingEdges (sNodes : List CLTGraphNode) (edges : List CLTGraphLink)
    (s t : Nat) : List CLTGraphLink :=
  edges.filter (fun e =>
    nodeIdToIdx sNodes e.source == some s && nodeIdToIdx sNodes e.target == some t)

/-! ### Concrete graphs used by counterexamples and witnesses -/

/-- Embedding node E of the spec §8 scenario. -/
def nodeE : CLTGraphNode := ⟨"E", "embedding", "E", 0, none, 0⟩

/-- Transcoder-feature node F of the spec §8 scenario. -/
def nodeF : CLTGraphNode := ⟨"F", "cross layer transcoder", "3", 0, some 5, 0⟩

/-- Reconstruction-error node R of the spec §8 scenario. -/
def nodeR : CLTGraphNode := ⟨"R", "mlp reconstruction error", "3", 0, none, 0⟩

/-- Logit node L of the spec §8 scenario, `token_prob = 1`. -/
def nodeL : CLTGraphNode := ⟨"L", "logit", "4", 0, none, 1⟩

/-- The spec §8 scenario graph: E→F (2), F→L (1), E→R (1), R→L (1). -/
def scenarioGraph : WorkerGraph :=
  ⟨[nodeE, nodeF, nodeR, nodeL],
   [⟨"E", "F", 2⟩, ⟨"F", "L", 1⟩, ⟨"E", "R", 1⟩, ⟨"R", "L", 1⟩]⟩

/-- A pinned transcoder-feature node used to make `pinnedIds` non-empty. -/
def nodeP : CLTGraphNode := ⟨"P", "cross layer transcoder", "1", 0, some 0, 0⟩

/-- First of two reconstruction-error nodes sharing key `3|0`. -/
def nodeR1 : CLTGraphNode := ⟨"R1", "mlp reconstruction error", "3", 0, none, 0⟩

/-- Second of two reconstruction-error nodes sharing key `3|0`. -/
def nodeR2 : CLTGraphNode := ⟨"R2", "mlp reconstruction error", "3", 0, none, 0⟩

/-- Edges for the duplicate-error-key graph: F→L (1) and E→R1 (1). -/
def dupKeyLinks : List CLTGraphLink := [⟨"F", "L", 1⟩, ⟨"E", "R1", 1⟩]

/-- A reconstruction-error node with key `1|0`, matching `nodeP`. -/
def nodeQ : CLTGraphNode := ⟨"Q", "mlp reconstruction error", "1", 0, none, 0⟩

/-- A concrete 4×4 matrix used by the C10 witness. -/
def sampleMat : Mat :=
  [[1, 0, 0, 0], [5, 0, 0, 0], [0, 0, 0, 0], [0, 2, 0, 0]]

/-! ### Helper lemmas -/

theorem getD_set (l : List α) (i j : Nat) (v d : α) :
    (l.set i v).getD j d = if i = j ∧ i < l.length then v else l.getD j d := by
  induction l generalizing i j with
  | nil => simp
  | cons a l ih =>
    cases i with
    | zero =>
      cases j with
      | zero => simp
      | succ j => simp
    | succ i =>
      cases j with
      | zero => simp
      | succ j =>
        rw [List.set_cons_succ, List.getD_cons_succ, List.getD_cons_succ, ih]
        by_cases h : i = j ∧ i < l.length
        · rw [if_pos h, if_pos (by simp only [List.length_cons]; omega)]
        · rw [if_neg h, if_neg (by simp only [List.length_cons]; omega)]

theorem getD_replicate (n i : Nat) (a d : α) :
    (List.replicate n a).getD i d = if i < n then a else d := by
  induction n generalizing i with
  | zero => simp [List.getD]
  | succ n ih =>
    cases i with
    | zero => rw [List.replicate_succ]; simp
    | succ i =>
      rw [List.replicate_succ, List.getD_cons_succ, ih]
      simp [Nat.succ_lt_succ_iff]

theorem entry_zeroMatrix (n r c : Nat) : entry (zeroMatrix n) r c = 0 := by
  unfold entry zeroMatrix
  rw [getD_replicate]
  split
  · rw [getD_replicate]; split <;> rfl
  · simp [List.getD]

theorem length_setEntry (M : Mat) (r c : Nat) (v : Rat) :
    (setEntry M r c v).length = M.length := by
  simp [setEntry]

theorem entry_setEntry (M : Mat) (r c : Nat) (v : Rat) (r' c' : Nat) :
    entry (setEntry M r c v) r' c' =
      if r = r' ∧ c = c' ∧ r < M.length ∧ c < (M.getD r []).length then v
      else entry M r' c' := by
  unfold entry setEntry
  rw [getD_set]
  by_cases h1 : r = r' ∧ r < M.length
  · obtain ⟨rfl, hlt⟩ := h1
    rw [if_pos ⟨rfl, hlt⟩, getD_set]
    by_cases h2 : c = c' ∧ c < (M.getD r []).length
    · rw [if_pos h2, if_pos ⟨rfl, h2.1, hlt, h2.2⟩]
    · rw [if_neg h2, if_neg (by tauto)]
  · rw [if_neg h1, if_neg (by tauto)]

theorem rowD_map (M : Mat) (f : List Rat → List Rat) (hf : f [] = []) (r : Nat) :
    rowD (M.map f) r = f (rowD M r) := by
  unfold rowD
  rw [List.getD_eq_getElem?_getD, List.getD_eq_getElem?_getD, List.getElem?_map]
  cases M[r]? with
  | none => simp [hf]
  | some row => simp

theorem rowD_enumMap (M : Mat) (g : Nat × List Rat → List Rat)
    (hg : ∀ i, g (i, []) = []) (r : Nat) :
    rowD (M.enum.map g) r = g (r, rowD M r) := by
  unfold rowD
  rw [List.getD_eq_getElem?_getD, List.getD_eq_getElem?_getD, List.getElem?_map,
    List.getElem?_enum]
  cases M[r]? with
  | none => simp [hg]
  | some row => simp

theorem vecMat_length (v : List Rat) (A : Mat) (n : Nat) :
    (vecMat v A n).length = n := by
  simp [vecMat]

theorem vecMat_replicate_zero (m : Nat) (A : Mat) (n : Nat) :
    vecMat (List.replicate m 0) A n = List.replicate n 0 := by
  unfold vecMat
  refine List.eq_replicate_iff.2 ⟨by simp, ?_⟩
  intro b hb
  obtain ⟨j, hj, rfl⟩ := List.mem_map.1 hb
  apply List.sum_eq_zero
  intro x hx
  obtain ⟨i, hi, rfl⟩ := List.mem_map.1 hx
  rw [getD_replicate]
  split <;> simp

theorem iterApply_succ_shift (A : Mat) (n k : Nat) (v : List Rat) :
    iterApply A n (k + 1) v = iterApply A n k (vecMat v A n) := by
  induction k with
  | zero => rfl
  | succ k ih =>
    show vecMat (iterApply A n (k + 1) v) A n =
      vecMat (iterApply A n k (vecMat v A n)) A n
    rw [ih]

theorem iterApply_replicate_zero (A : Mat) (n k : Nat) :
    iterApply A n k (List.replicate n 0) = List.replicate n 0 := by
  induction k with
  | zero => rfl
  | succ k ih => simp only [iterApply, ih, vecMat_replicate_zero]

theorem addVec_cons (x y : Rat) (a b : List Rat) :
    addVec (x :: a) (y :: b) = (x + y) :: addVec a b := rfl

theorem addVec_assoc (a b c : List Rat) :
    addVec (addVec a b) c = addVec a (addVec b c) := by
  induction a generalizing b c with
  | nil => simp [addVec]
  | cons x a ih =>
    cases b with
    | nil => simp [addVec]
    | cons y b =>
      cases c with
      | nil => simp [addVec]
      | cons z c =>
        rw [addVec_cons, addVec_cons, addVec_cons, addVec_cons, add_assoc, ih]

theorem length_addVec (a b : List Rat) :
    (addVec a b).length = min a.length b.length := by
  simp [addVec]

theorem addVec_replicate_zero_right (a : List Rat) (n : Nat) (h : a.length = n) :
    addVec a (List.replicate n 0) = a := by
  induction a generalizing n with
  | nil => simp [addVec]
  | cons x a ih =>
    cases n with
    | zero => simp at h
    | succ n =>
      simp only [List.replicate_succ, addVec, List.zipWith_cons_cons, add_zero]
      exact congrArg (List.cons x) (ih n (by simpa using h))

theorem addVec_replicate_replicate (n : Nat) :
    addVec (List.replicate n (0:Rat)) (List.replicate n 0) = List.replicate n 0 :=
  addVec_replicate_zero_right _ n (by simp)

theorem tailSum_replicate_zero (A : Mat) (n k : Nat) :
    tailSum A n k (List.replicate n 0) = List.replicate n 0 := by
  induction k with
  | zero => rfl
  | succ k ih =>
    simp only [tailSum, vecMat_replicate_zero, ih, addVec_replicate_replicate]

theorem any_ne_zero_eq_false_iff (l : List Rat) :
    (l.any (fun v => decide (v ≠ 0)) = false) ↔ l = List.replicate l.length 0 := by
  rw [List.eq_replicate_iff]
  constructor
  · intro h
    refine ⟨rfl, fun b hb => ?_⟩
    by_contra hb0
    have htrue : l.any (fun v => decide (v ≠ 0)) = true :=
      List.any_eq_true.2 ⟨b, hb, by simpa using hb0⟩
    rw [h] at htrue
    cases htrue
  · rintro ⟨-, h⟩
    cases hany : l.any (fun v => decide (v ≠ 0)) with
    | false => rfl
    | true =>
      obtain ⟨v, hv, hvd⟩ := List.any_eq_true.1 hany
      exact absurd (h v hv) (by simpa using hvd)

theorem influenceLoop_error (A : Mat) (n maxIter : Nat) :
    ∀ (fuel : Nat) (cur acc : List Rat), cur.length = n →
      iterApply A n fuel cur ≠ List.replicate n 0 →
      influenceLoop A n maxIter fuel cur acc =
        Except.error (JsError.convergence
          ("Influence computation failed to converge after " ++
            toString maxIter ++ " iterations")) := by
  intro fuel
  induction fuel with
  | zero =>
    intro cur acc hlen hne
    have hcur : cur ≠ List.replicate n 0 := fun h => hne (by simpa [iterApply] using h)
    have hany : cur.any (fun v => decide (v ≠ 0)) = true := by
      cases h : cur.any (fun v => decide (v ≠ 0)) with
      | true => rfl
      | false =>
        have := (any_ne_zero_eq_false_iff cur).1 h
        rw [hlen] at this
        exact absurd this hcur
    simp only [influenceLoop, hany, if_true]
  | succ fuel ih =>
    intro cur acc hlen hne
    have hcur : cur ≠ List.replicate n 0 := by
      rintro rfl
      exact hne (iterApply_replicate_zero A n (fuel + 1))
    have hany : cur.any (fun v => decide (v ≠ 0)) = true := by
      cases h : cur.any (fun v => decide (v ≠ 0)) with
      | true => rfl
      | false =>
        have := (any_ne_zero_eq_false_iff cur).1 h
        rw [hlen] at this
        exact absurd this hcur
    simp only [influenceLoop, hany, if_true]
    exact ih (vecMat cur A n) (addVec acc (vecMat cur A n)) (vecMat_length _ _ _)
      (by rw [← iterApply_succ_shift]; exact hne)

theorem influenceLoop_ok (A : Mat) (n maxIter : Nat) :
    ∀ (fuel : Nat) (cur acc : List Rat), cur.length = n → acc.length = n →
      iterApply A n fuel cur = List.replicate n 0 →
      influenceLoop A n maxIter fuel cur acc =
        Except.ok (addVec acc (tailSum A n fuel cur)) := by
  intro fuel
  induction fuel with
  | zero =>
    intro cur acc hlen hacc hz
    have hcur : cur = List.replicate n 0 := by simpa [iterApply] using hz
    have hany : cur.any (fun v => decide (v ≠ 0)) = false := by
      apply (any_ne_zero_eq_false_iff cur).2
      rw [hlen]
      exact hcur
    simp only [influenceLoop, hany, Bool.false_eq_true, if_false]
    rw [show tailSum A n 0 cur = List.replicate n 0 from rfl,
      addVec_replicate_zero_right acc n hacc]
  | succ fuel ih =>
    intro cur acc hlen hacc hz
    by_cases hcur : cur = List.replicate n 0
    · subst hcur
      have hany : (List.replicate n (0:Rat)).any (fun v => decide (v ≠ 0)) = false := by
        apply (any_ne_zero_eq_false_iff _).2
        simp
      simp only [influenceLoop, hany, Bool.false_eq_true, if_false]
      rw [tailSum_replicate_zero, addVec_replicate_zero_right acc n hacc]
    · have hany : cur.any (fun v => decide (v ≠ 0)) = true := by
        cases h : cur.any (fun v => decide (v ≠ 0)) with
        | true => rfl
        | false =>
          have := (any_ne_zero_eq_false_iff cur).1 h
          rw [hlen] at this
          exact absurd this hcur
      simp only [influenceLoop, hany, if_true]
      rw [ih (vecMat cur A n) (addVec acc (vecMat cur A n)) (vecMat_length _ _ _)
        (by rw [length_addVec, hacc, vecMat_length]; omega)
        (by rw [← iterApply_succ_shift]; exact hz)]
      rw [addVec_assoc]
      rfl

theorem sum_map_div (l : List Rat) (c : Rat) :
    (l.map (fun x => x / c)).sum = l.sum / c := by
  induction l with
  | nil => simp
  | cons a l ih => simp [ih, add_div]

theorem mat_ext (M M' : Mat) (hlen : M.length = M'.length)
    (h : ∀ r, rowD M r = rowD M' r) : M = M' := by
  apply List.ext_getElem hlen
  intro r h1 h2
  have hr := h r
  rwa [rowD, rowD, List.getD_eq_getElem _ _ h1, List.getD_eq_getElem _ _ h2] at hr

theorem length_zeroRowFirst (row : List Rat) (k : Nat) :
    (zeroRowFirst row k).length = row.length := by
  simp [zeroRowFirst]

theorem length_zeroRowAndColumn (M : Mat) (idx : Nat) :
    (zeroRowAndColumn M idx).length = M.length := by
  simp [zeroRowAndColumn]

theorem length_addColInto (M : Mat) (e f : Nat) :
    (addColInto M e f).length = M.length := by
  simp [addColInto]

theorem length_mergeStep (sNodes : List CLTGraphNode) (pinned : List String)
    (M : Mat) (q : Nat × CLTGraphNode) :
    (mergeStep sNodes pinned M q).length = M.length := by
  unfold mergeStep
  split
  · rfl
  · split
    · rfl
    · split
      · exact length_zeroRowAndColumn _ _
      · rw [length_zeroRowAndColumn, length_addColInto]

theorem rowD_addColInto (M : Mat) (e f r : Nat) :
    rowD (addColInto M e f) r =
      (rowD M r).set e ((rowD M r).getD e 0 + (rowD M r).getD f 0) := by
  exact rowD_map M _ rfl r

theorem rowD_zeroRowAndColumn (M : Mat) (idx r : Nat) :
    rowD (zeroRowAndColumn M idx) r =
      (if r = idx then zeroRowFirst (rowD M r) M.length else rowD M r).set idx 0 := by
  refine rowD_enumMap M _ (fun i => ?_) r
  split <;> rfl

theorem getD_enumMap (l : List α) (g : Nat × α → β) (i : Nat) (d : β) (dα : α) :
    (l.enum.map g).getD i d =
      if i < l.length then g (i, l.getD i dα) else d := by
  rw [List.getD_eq_getElem?_getD, List.getElem?_map, List.getElem?_enum]
  cases h : l[i]? with
  | none =>
    have : l.length ≤ i := List.getElem?_eq_none_iff.1 h
    rw [if_neg (by omega)]
    rfl
  | some a =>
    have hlt : i < l.length := by
      by_contra hge
      rw [List.getElem?_eq_none_iff.2 (by omega)] at h
      cases h
    rw [if_pos hlt, List.getD_eq_getElem?_getD, h]
    rfl

theorem getD_zeroRowFirst (row : List Rat) (k c : Nat) :
    (zeroRowFirst row k).getD c 0 =
      if c < row.length then (if c < k then 0 else row.getD c 0) else 0 := by
  unfold zeroRowFirst
  rw [getD_enumMap row _ c 0 0]

theorem zeroRowFirst_full (row : List Rat) (k : Nat) (h : row.length ≤ k) :
    zeroRowFirst row k = List.replicate row.length 0 := by
  refine List.eq_replicate_iff.2 ⟨length_zeroRowFirst row k, ?_⟩
  intro b hb
  obtain ⟨p, hp, rfl⟩ := List.mem_map.1 hb
  obtain ⟨i, row', hpi⟩ : ∃ i row', p = (i, row') := ⟨p.1, p.2, rfl⟩
  subst hpi
  have hget : row[i]? = some row' := List.mk_mem_enum_iff_getElem?.1 hp
  have hi : i < row.length := by
    by_contra hge
    rw [List.getElem?_eq_none_iff.2 (by omega)] at hget
    cases hget
  simp only []
  rw [if_pos (by omega)]

theorem replicate_set_zero (n i : Nat) :
    (List.replicate n (0:Rat)).set i 0 = List.replicate n 0 := by
  induction n generalizing i with
  | zero => rfl
  | succ n ih =>
    cases i with
    | zero => rw [List.replicate_succ]; rfl
    | succ i =>
      rw [List.replicate_succ, List.set_cons_succ, ih, ← List.replicate_succ]

theorem zeroRowFirst_replicate (n k : Nat) :
    zeroRowFirst (List.replicate n (0:Rat)) k = List.replicate n 0 := by
  refine List.eq_replicate_iff.2 ⟨by rw [length_zeroRowFirst, List.length_replicate], ?_⟩
  intro b hb
  obtain ⟨p, hp, rfl⟩ := List.mem_map.1 hb
  obtain ⟨i, x, hpi⟩ : ∃ i x, p = (i, x) := ⟨p.1, p.2, rfl⟩
  subst hpi
  have hget : (List.replicate n (0:Rat))[i]? = some x := List.mk_mem_enum_iff_getElem?.1 hp
  have hx : x = 0 := by
    have hmem : x ∈ List.replicate n (0:Rat) := by
      cases hmem2 : (List.replicate n (0:Rat))[i]? with
      | none => rw [hmem2] at hget; cases hget
      | some y =>
        rw [hmem2] at hget
        cases hget
        exact List.getElem?_mem hmem2
    exact List.eq_of_mem_replicate hmem
  subst hx
  simp only []
  split <;> rfl

theorem getD_replicate_zero (n i : Nat) :
    (List.replicate n (0:Rat)).getD i 0 = 0 := by
  rw [getD_replicate]
  split <;> rfl

theorem rowD_zeroMatrix (n r : Nat) :
    rowD (zeroMatrix n) r = if r < n then List.replicate n 0 else [] := by
  unfold rowD zeroMatrix
  rw [getD_replicate]

theorem square_zeroMatrix (n : Nat) : SquareMat (zeroMatrix n) n := by
  refine ⟨by simp [zeroMatrix], ?_⟩
  intro row hrow
  rw [List.eq_of_mem_replicate hrow, List.length_replicate]

theorem square_setEntry (M : Mat) (n r c : Nat) (v : Rat)
    (hsq : SquareMat M n) : SquareMat (setEntry M r c v) n := by
  refine ⟨by rw [length_setEntry]; exact hsq.1, ?_⟩
  intro row hrow
  unfold setEntry at hrow
  obtain ⟨i, hi, hEq⟩ := List.mem_iff_getElem.1 hrow
  rw [List.length_set] at hi
  rw [List.getElem_set] at hEq
  by_cases hir : r = i
  · subst hir
    rw [if_pos rfl] at hEq
    rw [← hEq, List.length_set]
    have hmem : M.getD r [] ∈ M := by
      rw [List.getD_eq_getElem _ _ hi]
      exact List.getElem_mem hi
    exact hsq.2 _ hmem
  · rw [if_neg hir] at hEq
    rw [← hEq]
    exact hsq.2 _ (List.getElem_mem hi)

theorem square_addColInto (M : Mat) (n e f : Nat) (hsq : SquareMat M n) :
    SquareMat (addColInto M e f) n := by
  refine ⟨by rw [length_addColInto]; exact hsq.1, ?_⟩
  intro row hrow
  obtain ⟨row', hrow', rfl⟩ := List.mem_map.1 hrow
  rw [List.length_set]
  exact hsq.2 _ hrow'

theorem square_zeroRowAndColumn (M : Mat) (n idx : Nat) (hsq : SquareMat M n) :
    SquareMat (zeroRowAndColumn M idx) n := by
  refine ⟨by rw [length_zeroRowAndColumn]; exact hsq.1, ?_⟩
  intro row hrow
  obtain ⟨p, hp, rfl⟩ := List.mem_map.1 hrow
  obtain ⟨i, row', hpi⟩ : ∃ i row', p = (i, row') := ⟨p.1, p.2, rfl⟩
  subst hpi
  have hget : M[i]? = some row' := List.mk_mem_enum_iff_getElem?.1 hp
  have hmem : row' ∈ M := List.getElem?_mem hget
  simp only []
  rw [List.length_set]
  split
  · rw [length_zeroRowFirst]
    exact hsq.2 _ hmem
  · exact hsq.2 _ hmem

theorem square_mergeStep (sNodes : List CLTGraphNode) (pinned : List String)
    (M : Mat) (n : Nat) (q : Nat × CLTGraphNode) (hsq : SquareMat M n) :
    SquareMat (mergeStep sNodes pinned M q) n := by
  unfold mergeStep
  split
  · exact hsq
  · split
    · exact hsq
    · split
      · exact square_zeroRowAndColumn M n q.1 hsq
      · exact square_zeroRowAndColumn _ n q.1 (square_addColInto M n _ q.1 hsq)

theorem rowLocal_mergeStep (sNodes : List CLTGraphNode) (pinned : List String)
    (M M' : Mat) (q : Nat × CLTGraphNode) (r : Nat)
    (hlen : M.length = M'.length) (hrow : rowD M r = rowD M' r) :
    rowD (mergeStep sNodes pinned M q) r = rowD (mergeStep sNodes pinned M' q) r := by
  unfold mergeStep
  split
  · exact hrow
  · split
    · exact hrow
    · split
      · rw [rowD_zeroRowAndColumn, rowD_zeroRowAndColumn, hlen, hrow]
      · rw [rowD_zeroRowAndColumn, rowD_zeroRowAndColumn,
          rowD_addColInto, rowD_addColInto, length_addColInto, length_addColInto,
          hlen, hrow]

theorem mergeStep_zero_row (sNodes : List CLTGraphNode) (pinned : List String)
    (M : Mat) (n : Nat) (q : Nat × CLTGraphNode) (r : Nat)
    (hrow : rowD M r = List.replicate n 0) :
    rowD (mergeStep sNodes pinned M q) r = List.replicate n 0 := by
  unfold mergeStep
  split
  · exact hrow
  · split
    · exact hrow
    · split
      · rw [rowD_zeroRowAndColumn, hrow]
        split
        · rw [zeroRowFirst_replicate, replicate_set_zero]
        · rw [replicate_set_zero]
      · rw [rowD_zeroRowAndColumn, rowD_addColInto, hrow, getD_replicate_zero,
          getD_replicate_zero, zero_add, replicate_set_zero]
        split
        · rw [zeroRowFirst_replicate, replicate_set_zero]
        · rw [replicate_set_zero]

theorem mergeStep_eq_of_good (sNodes : List CLTGraphNode) (pinned : List String)
    (M M' : Mat) (n f₂ : Nat) (nd : CLTGraphNode)
    (hsq : SquareMat M n) (hsq' : SquareMat M' n)
    (hagree : ∀ r, r ≠ f₂ → rowD M r = rowD M' r)
    (hft : nd.feature_type = "cross layer transcoder")
    (hpin : pinned.contains nd.node_id = false) :
    mergeStep sNodes pinned M (f₂, nd) = mergeStep sNodes pinned M' (f₂, nd) := by
  have hlen : M.length = M'.length := by rw [hsq.1, hsq'.1]
  have hft' : ¬((f₂, nd).2.feature_type ≠ "cross layer transcoder") := by
    simp [hft]
  have hpin' : ¬(pinned.contains (f₂, nd).2.node_id = true) := by
    show ¬(pinned.contains nd.node_id = true)
    rw [hpin]
    decide
  have hstep : ∀ (N : Mat), SquareMat N n → f₂ < n →
      rowD (mergeStep sNodes pinned N (f₂, nd)) f₂ = List.replicate n 0 := by
    intro N hsqN hrange
    have hrowlenN : (rowD N f₂).length = n := by
      apply hsqN.2
      rw [rowD, List.getD_eq_getElem _ _ (hsqN.1 ▸ hrange)]
      exact List.getElem_mem _
    unfold mergeStep
    rw [if_neg hft', if_neg hpin']
    split
    · rw [rowD_zeroRowAndColumn, if_pos rfl,
        zeroRowFirst_full _ _ (by rw [hrowlenN, hsqN.1]),
        hrowlenN, replicate_set_zero]
    · rw [rowD_zeroRowAndColumn, if_pos rfl,
        zeroRowFirst_full _ _ (by
          rw [rowD_addColInto, List.length_set, hrowlenN, length_addColInto, hsqN.1]),
        rowD_addColInto, List.length_set, hrowlenN, replicate_set_zero]
  apply mat_ext
  · rw [length_mergeStep, length_mergeStep, hlen]
  · intro r
    by_cases hr : r = f₂
    · subst hr
      by_cases hrange : r < n
      · rw [hstep M hsq hrange, hstep M' hsq' hrange]
      · -- row r is out of range in both matrices: both rows are []
        have hnil : rowD M r = [] := by
          rw [rowD, List.getD_eq_default]
          rw [hsq.1]; omega
        have hnil' : rowD M' r = [] := by
          rw [rowD, List.getD_eq_default]
          rw [hsq'.1]; omega
        exact rowLocal_mergeStep sNodes pinned M M' (r, nd) r hlen (by rw [hnil, hnil'])
    · exact rowLocal_mergeStep sNodes pinned M M' (f₂, nd) r hlen (hagree r hr)

theorem mergeFold_eq (sNodes : List CLTGraphNode) (pinned : List String)
    (n f₂ : Nat) :
    ∀ (ps : List (Nat × CLTGraphNode)) (M M' : Mat),
      SquareMat M n → SquareMat M' n →
      (∀ r, r ≠ f₂ → rowD M r = rowD M' r) →
      (∃ nd, (f₂, nd) ∈ ps ∧ nd.feature_type = "cross layer transcoder" ∧
        pinned.contains nd.node_id = false) →
      ps.foldl (mergeStep sNodes pinned) M = ps.foldl (mergeStep sNodes pinned) M' := by
  intro ps
  induction ps with
  | nil =>
    rintro M M' _ _ _ ⟨nd, hmem, -⟩
    cases hmem
  | cons q ps ih =>
    rintro M M' hsq hsq' hagree ⟨nd, hmem, hft, hpin⟩
    rw [List.foldl_cons, List.foldl_cons]
    by_cases hq : q = (f₂, nd)
    · subst hq
      rw [mergeStep_eq_of_good sNodes pinned M M' n f₂ nd hsq hsq' hagree hft hpin]
    · have hmem' : (f₂, nd) ∈ ps := by
        cases List.mem_cons.1 hmem with
        | inl h => exact absurd h.symm hq
        | inr h => exact h
      have hlen : M.length = M'.length := by rw [hsq.1, hsq'.1]
      exact ih _ _ (square_mergeStep sNodes pinned M n q hsq)
        (square_mergeStep sNodes pinned M' n q hsq')
        (fun r hr => rowLocal_mergeStep sNodes pinned M M' q r hlen (hagree r hr))
        ⟨nd, hmem', hft, hpin⟩

theorem rowD_setEntry_ne (M : Mat) (r0 c : Nat) (v : Rat) (r : Nat)
    (h : r ≠ r0) : rowD (setEntry M r0 c v) r = rowD M r := by
  unfold rowD setEntry
  rw [getD_set, if_neg (fun hc => h hc.1.symm)]

theorem entry_zeroRowAndColumn (M : Mat) (n idx r c : Nat) (hsq : SquareMat M n)
    (hr : r < n) (hc : c < n) :
    entry (zeroRowAndColumn M idx) r c =
      if r = idx ∨ c = idx then 0 else entry M r c := by
  have hMlen : M.length = n := hsq.1
  have hrowlen : (rowD M r).length = n := by
    apply hsq.2
    rw [rowD, List.getD_eq_getElem _ _ (hsq.1 ▸ hr)]
    exact List.getElem_mem _
  show (rowD (zeroRowAndColumn M idx) r).getD c 0 = _
  rw [rowD_zeroRowAndColumn]
  by_cases hridx : r = idx
  · rw [if_pos hridx, getD_set, if_pos (Or.inl hridx)]
    by_cases hcidx : idx = c ∧ idx < (zeroRowFirst (rowD M r) M.length).length
    · rw [if_pos hcidx]
    · rw [if_neg hcidx, getD_zeroRowFirst,
        if_pos (show c < (rowD M r).length by omega),
        if_pos (show c < M.length by omega)]
  · rw [if_neg hridx, getD_set]
    by_cases hcidx : c = idx
    · rw [if_pos (show idx = c ∧ idx < (rowD M r).length by
          refine ⟨hcidx.symm, ?_⟩
          omega),
        if_pos (Or.inr hcidx)]
    · rw [if_neg (show ¬(idx = c ∧ idx < (rowD M r).length) from
          fun hcontra => hcidx hcontra.1.symm),
        if_neg (show ¬(r = idx ∨ c = idx) by tauto)]
      rfl

theorem mergeStep_eq_none (sNodes : List CLTGraphNode) (pinned : List String)
    (M : Mat) (f : Nat) (nd : CLTGraphNode)
    (hft : nd.feature_type = "cross layer transcoder")
    (hpin : pinned.contains nd.node_id = false)
    (herr : errorIndexByKey sNodes (nodeKey nd) = none) :
    mergeStep sNodes pinned M (f, nd) = zeroRowAndColumn M f := by
  unfold mergeStep
  rw [if_neg (show ¬((f, nd).2.feature_type ≠ "cross layer transcoder") by
      simp [hft]),
    if_neg (show ¬(pinned.contains (f, nd).2.node_id = true) from
      (by rw [hpin]; decide : ¬(pinned.contains nd.node_id = true))),
    show errorIndexByKey sNodes (nodeKey (f, nd).2) = none from herr]

theorem mergeStep_eq_some (sNodes : List CLTGraphNode) (pinned : List String)
    (M : Mat) (f j : Nat) (nd : CLTGraphNode)
    (hft : nd.feature_type = "cross layer transcoder")
    (hpin : pinned.contains nd.node_id = false)
    (herr : errorIndexByKey sNodes (nodeKey nd) = some j) :
    mergeStep sNodes pinned M (f, nd) =
      zeroRowAndColumn (addColInto M j f) f := by
  unfold mergeStep
  rw [if_neg (show ¬((f, nd).2.feature_type ≠ "cross layer transcoder") by
      simp [hft]),
    if_neg (show ¬(pinned.contains (f, nd).2.node_id = true) from
      (by rw [hpin]; decide : ¬(pinned.contains nd.node_id = true))),
    show errorIndexByKey sNodes (nodeKey (f, nd).2) = some j from herr]

theorem mergeStep_nil_row (sNodes : List CLTGraphNode) (pinned : List String)
    (M : Mat) (q : Nat × CLTGraphNode) (r : Nat) (h : rowD M r = []) :
    rowD (mergeStep sNodes pinned M q) r = [] := by
  unfold mergeStep
  split
  · exact h
  · split
    · exact h
    · split
      · rw [rowD_zeroRowAndColumn, h]
        split <;> rfl
      · rw [rowD_zeroRowAndColumn, rowD_addColInto, h]
        split <;> rfl

theorem mergeStep_zeroMatrix (sNodes : List CLTGraphNode) (pinned : List String)
    (n : Nat) (q : Nat × CLTGraphNode) :
    mergeStep sNodes pinned (zeroMatrix n) q = zeroMatrix n := by
  apply mat_ext
  · rw [length_mergeStep]
  · intro r
    by_cases hr : r < n
    · rw [mergeStep_zero_row sNodes pinned (zeroMatrix n) n q r
        (by rw [rowD_zeroMatrix, if_pos hr]), rowD_zeroMatrix, if_pos hr]
    · rw [mergeStep_nil_row sNodes pinned (zeroMatrix n) q r
        (by rw [rowD_zeroMatrix, if_neg hr]), rowD_zeroMatrix, if_neg hr]

theorem mergePass_zeroMatrix (sNodes : List CLTGraphNode) (pinned : List String)
    (n : Nat) : mergePass sNodes pinned (zeroMatrix n) = zeroMatrix n := by
  unfold mergePass
  generalize sNodes.enum = ps
  induction ps with
  | nil => rfl
  | cons q ps ih => rw [List.foldl_cons, mergeStep_zeroMatrix, ih]

theorem normalizeRow_replicate_zero (n : Nat) :
    normalizeRow (List.replicate n 0) = List.replicate n 0 := by
  unfold normalizeRow
  rw [List.map_replicate, abs_zero, List.map_replicate, zero_div]

theorem normalizeMatrix_zeroMatrix (n : Nat) :
    normalizeMatrix (zeroMatrix n) = zeroMatrix n := by
  unfold normalizeMatrix zeroMatrix
  rw [List.map_replicate, normalizeRow_replicate_zero]

theorem vecMat_zeroMatrix (v : List Rat) (n k : Nat) :
    vecMat v (zeroMatrix n) k = List.replicate k 0 := by
  unfold vecMat
  refine List.eq_replicate_iff.2 ⟨by simp, ?_⟩
  intro b hb
  obtain ⟨j, hj, rfl⟩ := List.mem_map.1 hb
  apply List.sum_eq_zero
  intro x hx
  obtain ⟨i, hi, rfl⟩ := List.mem_map.1 hx
  rw [entry_zeroMatrix, mul_zero]

theorem computeInfluence_cons (row0 : List Rat) (rest : Mat) (lw : List Rat)
    (mi : Nat) :
    computeInfluence (row0 :: rest) lw mi =
      influenceLoop (row0 :: rest) row0.length mi mi
        (vecMat lw (row0 :: rest) row0.length)
        (vecMat lw (row0 :: rest) row0.length) := rfl

theorem computeInfluence_zeroMatrix (n : Nat) (lw : List Rat) (h : 0 < n) :
    computeInfluence (zeroMatrix n) lw 1000 =
      Except.ok (List.replicate n 0) := by
  obtain ⟨m, rfl⟩ : ∃ m, n = m + 1 := ⟨n - 1, by omega⟩
  have hz : zeroMatrix (m + 1) =
      List.replicate (m + 1) (0:Rat) :: List.replicate m (List.replicate (m + 1) 0) := by
    rw [zeroMatrix, List.replicate_succ]
  rw [hz, computeInfluence_cons, List.length_replicate, ← hz, vecMat_zeroMatrix,
    influenceLoop_ok _ _ 1000 1000 _ _ (by simp) (by simp)
      (iterApply_replicate_zero _ _ _),
    tailSum_replicate_zero, addVec_replicate_replicate]

theorem sliceSum_replicate_zero (n a b : Nat) :
    sliceSum (List.replicate n (0:Rat)) a b = 0 := by
  apply List.sum_eq_zero
  intro x hx
  have hx2 : x ∈ List.replicate n (0:Rat) :=
    List.mem_of_mem_drop (List.mem_of_mem_take hx)
  exact List.eq_of_mem_replicate hx2

theorem zipWith_add_replicate_zero_left (l : List Rat) (n : Nat)
    (h : l.length = n) :
    List.zipWith (fun x y => x + y) (List.replicate n 0) l = l := by
  induction l generalizing n with
  | nil => simp
  | cons x l ih =>
    cases n with
    | zero => simp at h
    | succ n =>
      rw [List.replicate_succ, List.zipWith_cons_cons, zero_add,
        ih n (by simpa using h)]

theorem zipWith_one_mul_sum (l : List Rat) (n : Nat) (h : l.length = n) :
    (List.zipWith (fun x y => x * y) (List.replicate n 1) l).sum = l.sum := by
  induction l generalizing n with
  | nil => simp
  | cons x l ih =>
    cases n with
    | zero => simp at h
    | succ n =>
      rw [List.replicate_succ, List.zipWith_cons_cons, one_mul, List.sum_cons,
        List.sum_cons, ih n (by simpa using h)]

theorem set_append_offset (l₁ l₂ : List α) (i : Nat) (v : α) :
    (l₁ ++ l₂).set (l₁.length + i) v = l₁ ++ l₂.set i v := by
  induction l₁ with
  | nil => simp
  | cons a l₁ ih =>
    simp only [List.cons_append, List.length_cons]
    rw [show l₁.length + 1 + i = (l₁.length + i) + 1 by omega,
      List.set_cons_succ, ih]

theorem buildFold (probs : List Rat) (n k : Nat) (hk : probs.length = k)
    (hkn : k ≤ n) :
    ∀ j, j ≤ k →
      (List.range j).foldl
        (fun lw i => lw.set (n - k + i) (probs.getD i 0))
        (List.replicate n 0) =
      List.replicate (n - k) 0 ++ probs.take j ++ List.replicate (k - j) 0 := by
  intro j
  induction j with
  | zero =>
    intro _
    rw [List.range_zero, List.foldl_nil, List.take_zero, List.append_nil,
      ← List.replicate_add, Nat.sub_zero]
    congr 1
    omega
  | succ j ih =>
    intro hj
    rw [List.range_succ, List.foldl_append, ih (by omega), List.foldl_cons,
      List.foldl_nil]
    have hA : (List.replicate (n - k) (0:Rat)).length = n - k := by simp
    have hB : (probs.take j).length = j := by
      rw [List.length_take]
      omega
    have h1 := set_append_offset (List.replicate (n - k) (0:Rat))
      (probs.take j ++ List.replicate (k - j) 0) j (probs.getD j 0)
    rw [hA] at h1
    have h0 := set_append_offset (probs.take j) (List.replicate (k - j) 0) 0
      (probs.getD j 0)
    rw [hB, Nat.add_zero] at h0
    have hgetd : probs.getD j 0 = probs[j] := List.getD_eq_getElem probs 0 (by omega)
    rw [List.append_assoc, h1, h0, show k - j = (k - (j + 1)) + 1 by omega,
      List.replicate_succ, List.set_cons_zero, hgetd]
    rw [show List.take (j + 1) probs = List.take j probs ++ [probs[j]] from by
      rw [List.take_succ, List.getElem?_eq_getElem (show j < probs.length by omega)]
      rfl]
    simp only [List.append_assoc]
    rfl

theorem keyLe_antisymm' (a b : Int × Int × Int × Int)
    (h1 : keyLe a b) (h2 : keyLe b a) : a = b := by
  obtain ⟨a1, a2, a3, a4⟩ := a
  obtain ⟨b1, b2, b3, b4⟩ := b
  simp only [keyLe] at h1 h2
  simp only [Prod.mk.injEq]
  omega

theorem perm_sorted_eq {α : Type} (r : α → α → Prop) :
    ∀ {l₁ l₂ : List α}, l₁.Perm l₂ → l₁.Sorted r → l₂.Sorted r →
      (∀ a ∈ l₁, ∀ b ∈ l₁, r a b → r b a → a = b) → l₁ = l₂ := by
  intro l₁
  induction l₁ with
  | nil =>
    intro l₂ hp _ _ _
    exact hp.nil_eq
  | cons a t₁ ih =>
    intro l₂ hp hs₁ hs₂ hanti
    cases l₂ with
    | nil => exact absurd hp.eq_nil (by simp)
    | cons b t₂ =>
      have hab : a = b := by
        by_cases h : a = b
        · exact h
        · have hamem : a ∈ b :: t₂ := hp.mem_iff.1 (List.mem_cons_self a t₁)
          have hbmem : b ∈ a :: t₁ := hp.mem_iff.2 (List.mem_cons_self b t₂)
          have ha2 : a ∈ t₂ := by
            cases List.mem_cons.1 hamem with
            | inl h2 => exact absurd h2 h
            | inr h2 => exact h2
          have hb1 : b ∈ t₁ := by
            cases List.mem_cons.1 hbmem with
            | inl h2 => exact absurd h2.symm h
            | inr h2 => exact h2
          have hrab : r a b := (List.sorted_cons.1 hs₁).1 b hb1
          have hrba : r b a := (List.sorted_cons.1 hs₂).1 a ha2
          exact hanti a (List.mem_cons_self a t₁) b (List.mem_cons_of_mem a hb1)
            hrab hrba
      subst hab
      rw [ih hp.cons_inv (List.sorted_cons.1 hs₁).2 (List.sorted_cons.1 hs₂).2
        (fun x hx y hy hr1 hr2 =>
          hanti x (List.mem_cons_of_mem a hx) y (List.mem_cons_of_mem a hy) hr1 hr2)]

theorem sortNodes_eq_of_perm (l₁ l₂ : List CLTGraphNode)
    (hperm : l₁.Perm l₂)
    (hkeys : ∀ a ∈ l₁, ∀ b ∈ l₁, getSortKey a = getSortKey b → a = b) :
    sortNodes l₁ = sortNodes l₂ := by
  apply perm_sorted_eq nodeLE
  · exact (List.perm_insertionSort nodeLE l₁).trans
      (hperm.trans (List.perm_insertionSort nodeLE l₂).symm)
  · exact List.sorted_insertionSort nodeLE l₁
  · exact List.sorted_insertionSort nodeLE l₂
  · intro a ha b hb h1 h2
    have ha' : a ∈ l₁ := (List.mem_insertionSort nodeLE).1 ha
    have hb' : b ∈ l₁ := (List.mem_insertionSort nodeLE).1 hb
    exact hkeys a ha' b hb' (keyLe_antisymm' _ _ h1 h2)

theorem reconstruct_eq_of_sort_eq (l₁ l₂ : List CLTGraphNode)
    (links : List CLTGraphLink) (h : sortNodes l₁ = sortNodes l₂) :
    reconstructAdjacencyMatrix l₁ links = reconstructAdjacencyMatrix l₂ links := by
  unfold reconstructAdjacencyMatrix
  rw [h]

theorem buildLogitWeights_eq (sN : List CLTGraphNode) (n : Nat)
    (hkn : countType sN "logit" ≤ n) :
    buildLogitWeights sN n =
      List.replicate (n - countType sN "logit") 0 ++
        (sN.filter (fun nd => nd.feature_type == "logit")).map
          (fun nd => nd.token_prob) := by
  have hklen : ((sN.filter (fun nd => nd.feature_type == "logit")).map
      (fun nd => nd.token_prob)).length = countType sN "logit" := by
    rw [List.length_map]
    rfl
  simp only [buildLogitWeights]
  rw [buildFold _ n (countType sN "logit") hklen hkn (countType sN "logit")
    le_rfl, List.take_of_length_le (le_of_eq hklen), Nat.sub_self,
    List.replicate_zero, List.append_nil]

theorem buildLogitWeights_sum (sN : List CLTGraphNode) (n : Nat)
    (hkn : countType sN "logit" ≤ n) :
    (buildLogitWeights sN n).sum =
      ((sN.filter (fun nd => nd.feature_type == "logit")).map
        (fun nd => nd.token_prob)).sum := by
  rw [buildLogitWeights_eq sN n hkn, List.sum_append, List.sum_replicate,
    smul_zero, zero_add]

theorem buildLogitWeights_length (sN : List CLTGraphNode) (n : Nat)
    (hkn : countType sN "logit" ≤ n) :
    (buildLogitWeights sN n).length = n := by
  rw [buildLogitWeights_eq sN n hkn, List.length_append, List.length_replicate,
    List.length_map]
  have hfl : ((sN.filter (fun nd => nd.feature_type == "logit"))).length =
      countType sN "logit" := rfl
  rw [hfl]
  omega

theorem idFold_bound (id : String) :
    ∀ (l : List CLTGraphNode) (s : Nat) (acc : Option Nat) (i : Nat),
      (List.enumFrom s l).foldl
        (fun acc p => if p.2.node_id = id then some p.1 else acc) acc = some i →
      acc = some i ∨ (s ≤ i ∧ i < s + l.length) := by
  intro l
  induction l with
  | nil => intro s acc i h; exact Or.inl h
  | cons a l ih =>
    intro s acc i h
    rw [show List.enumFrom s (a :: l) = (s, a) :: List.enumFrom (s + 1) l from rfl,
      List.foldl_cons] at h
    rcases ih (s + 1) _ i h with h2 | ⟨hb1, hb2⟩
    · by_cases hcond : a.node_id = id
      · rw [if_pos hcond] at h2
        injection h2 with h3
        right
        refine ⟨by omega, ?_⟩
        simp only [List.length_cons]
        omega
      · rw [if_neg hcond] at h2
        exact Or.inl h2
    · right
      refine ⟨by omega, ?_⟩
      simp only [List.length_cons]
      omega

theorem nodeIdToIdx_lt (sN : List CLTGraphNode) (id : String) (i : Nat)
    (h : nodeIdToIdx sN id = some i) : i < sN.length := by
  rcases idFold_bound id sN 0 none i h with h2 | ⟨-, h2⟩
  · cases h2
  · omega

theorem adjFold_spec (sN : List CLTGraphNode) (t s : Nat)
    (edges : List CLTGraphLink) :
    SquareMat (edges.foldl (adjStep sN) (zeroMatrix sN.length)) sN.length ∧
    entry (edges.foldl (adjStep sN) (zeroMatrix sN.length)) t s =
      (matchingEdges sN edges s t).getLast?.elim 0 (fun e => e.weight) := by
  induction edges using List.reverseRecOn with
  | nil =>
    refine ⟨square_zeroMatrix _, ?_⟩
    rw [List.foldl_nil, entry_zeroMatrix]
    rfl
  | append_singleton es e ih =>
    obtain ⟨ihsq, ihe⟩ := ih
    rw [List.foldl_append]
    have hfilter : matchingEdges sN (es ++ [e]) s t =
        matchingEdges sN es s t ++ matchingEdges sN [e] s t := by
      unfold matchingEdges
      rw [List.filter_append]
    cases hsrc : nodeIdToIdx sN e.source with
    | none =>
      have hstep : adjStep sN (es.foldl (adjStep sN) (zeroMatrix sN.length)) e =
          es.foldl (adjStep sN) (zeroMatrix sN.length) := by
        simp only [adjStep, hsrc]
      rw [List.foldl_cons, List.foldl_nil, hstep]
      refine ⟨ihsq, ?_⟩
      rw [ihe, hfilter]
      have : matchingEdges sN [e] s t = [] := by
        simp [matchingEdges, hsrc]
      rw [this, List.append_nil]
    | some s' =>
      cases htgt : nodeIdToIdx sN e.target with
      | none =>
        have hstep : adjStep sN (es.foldl (adjStep sN) (zeroMatrix sN.length)) e =
            es.foldl (adjStep sN) (zeroMatrix sN.length) := by
          simp only [adjStep, hsrc, htgt]
        rw [List.foldl_cons, List.foldl_nil, hstep]
        refine ⟨ihsq, ?_⟩
        rw [ihe, hfilter]
        have : matchingEdges sN [e] s t = [] := by
          simp [matchingEdges, hsrc, htgt]
        rw [this, List.append_nil]
      | some t' =>
        have hstep : adjStep sN (es.foldl (adjStep sN) (zeroMatrix sN.length)) e =
            setEntry (es.foldl (adjStep sN) (zeroMatrix sN.length)) t' s' e.weight := by
          simp only [adjStep, hsrc, htgt]
        rw [List.foldl_cons, List.foldl_nil, hstep]
        have ht' : t' < sN.length := nodeIdToIdx_lt sN e.target t' htgt
        have hs' : s' < sN.length := nodeIdToIdx_lt sN e.source s' hsrc
        set M := es.foldl (adjStep sN) (zeroMatrix sN.length) with hM
        have hMlen : M.length = sN.length := ihsq.1
        have hrowlen : (M.getD t' []).length = sN.length := by
          apply ihsq.2
          rw [List.getD_eq_getElem _ _ (by omega)]
          exact List.getElem_mem _
        refine ⟨square_setEntry M sN.length t' s' e.weight ihsq, ?_⟩
        rw [entry_setEntry]
        by_cases hmatch : t' = t ∧ s' = s
        · rw [if_pos ⟨hmatch.1, hmatch.2, by omega, by omega⟩, hfilter]
          have : matchingEdges sN [e] s t = [e] := by
            simp [matchingEdges, hsrc, htgt, hmatch.1, hmatch.2]
          rw [this, List.getLast?_concat]
          rfl
        · rw [if_neg (fun hcontra => hmatch ⟨hcontra.1, hcontra.2.1⟩), ihe, hfilter]
          have : matchingEdges sN [e] s t = [] := by
            by_cases h1 : t' = t
            · have h2 : ¬(s' = s) := fun h2 => hmatch ⟨h1, h2⟩
              simp [matchingEdges, hsrc, htgt, h2]
            · simp [matchingEdges, hsrc, htgt, h1]
          rw [this, List.append_nil]

theorem errAt_iff (s : List CLTGraphNode) (m : Nat) (k : String) :
    errAt s m k = true ↔ ∃ nd, s[m]? = some nd ∧
      nd.feature_type = "mlp reconstruction error" ∧ nodeKey nd = k := by
  unfold errAt
  cases h : s[m]? with
  | none => simp
  | some nd => simp

theorem errFold_keep (k : String) :
    ∀ (l : List CLTGraphNode) (t : Nat) (acc : Option Nat),
      (∀ nd ∈ l, ¬(nd.feature_type = "mlp reconstruction error" ∧ nodeKey nd = k)) →
      (List.enumFrom t l).foldl
        (fun acc p =>
          if p.2.feature_type = "mlp reconstruction error" ∧ nodeKey p.2 = k
          then some p.1 else acc) acc = acc := by
  intro l
  induction l with
  | nil => intro t acc _; rfl
  | cons a l ih =>
    intro t acc h
    rw [show List.enumFrom t (a :: l) = (t, a) :: List.enumFrom (t + 1) l from rfl,
      List.foldl_cons, if_neg (h a (List.mem_cons_self a l))]
    exact ih (t + 1) acc (fun nd hnd => h nd (List.mem_cons_of_mem a hnd))

theorem errFold_last (k : String) :
    ∀ (l : List CLTGraphNode) (s : Nat) (acc : Option Nat) (j : Nat)
      (nd : CLTGraphNode),
      l[j]? = some nd →
      (nd.feature_type = "mlp reconstruction error" ∧ nodeKey nd = k) →
      (∀ m nd', l[m]? = some nd' →
        (nd'.feature_type = "mlp reconstruction error" ∧ nodeKey nd' = k) → m ≤ j) →
      (List.enumFrom s l).foldl
        (fun acc p =>
          if p.2.feature_type = "mlp reconstruction error" ∧ nodeKey p.2 = k
          then some p.1 else acc) acc = some (s + j) := by
  intro l
  induction l with
  | nil =>
    intro s acc j nd h
    rw [List.getElem?_nil] at h
    cases h
  | cons a l ih =>
    intro s acc j nd hj hp hmax
    rw [show List.enumFrom s (a :: l) = (s, a) :: List.enumFrom (s + 1) l from rfl,
      List.foldl_cons]
    cases j with
    | zero =>
      rw [List.getElem?_cons_zero] at hj
      cases hj
      rw [if_pos hp, errFold_keep k l (s + 1) (some s) (fun nd' hnd' hpred => by
        obtain ⟨m, hm⟩ := List.mem_iff_getElem?.1 hnd'
        have := hmax (m + 1) nd' (by rw [List.getElem?_cons_succ]; exact hm) hpred
        omega)]
      rfl
    | succ j' =>
      rw [List.getElem?_cons_succ] at hj
      rw [ih (s + 1) _ j' nd hj hp (fun m nd' hm hpred => by
        have := hmax (m + 1) nd' (by rw [List.getElem?_cons_succ]; exact hm) hpred
        omega)]
      congr 1
      omega

/-- C1 (counterexample): two edges on the same ordered pair do not accumulate.
With nodes E (embedding) and L (logit) and the two edges E→L of weight 1 and
E→L of weight 2, the adjacency entry `A[L][E]` is 2 (the last edge's weight),
not the sum 3 claimed by the spec. -/
theorem adjacency_overwrite_counterexample :
    entry (reconstructAdjacencyMatrix [nodeE, nodeL]
      [⟨"E", "L", 1⟩, ⟨"E", "L", 2⟩]).1 1 0 = 2 ∧
    (([⟨"E", "L", 1⟩, ⟨"E", "L", 2⟩] : List CLTGraphLink).map
      (fun e => e.weight)).sum = 3 ∧
    (2 : Rat) ≠ 3 := by
  decide

/-- C1 (amended): the adjacency entry `A[target][source]` equals the weight of
the LAST edge in the edge list whose endpoints resolve to `(source, target)`
(plain assignment: later edges overwrite earlier ones on the same ordered
pair), or 0 when no such edge exists — weights do not accumulate. -/
theorem adjacency_entry_eq_last_matching_edge (nodes : List CLTGraphNode)
    (edges : List CLTGraphLink) (t s : Nat) :
    entry (reconstructAdjacencyMatrix nodes edges).1 t s =
      (matchingEdges (sortNodes nodes) edges s t).getLast?.elim 0
        (fun e => e.weight) := by
  unfold reconstructAdjacencyMatrix
  exact (adjFold_spec (sortNodes nodes) t s edges).2

/-- C2 (counterexample): on the §8 scenario, `compute` with `pinnedIds = []`
skips the merge pass entirely (the code only merges when `pinnedIds` is
non-empty), so its replacement score equals the one with
`pinnedIds = [F.node_id]` (both 2/3) instead of being strictly less. -/
theorem scenario_empty_pinned_scores_equal :
    computeGraphScoresFromGraphData scenarioGraph [] =
      Except.ok ⟨2/3, 5/6⟩ ∧
    computeGraphScoresFromGraphData scenarioGraph ["F"] =
      Except.ok ⟨2/3, 5/6⟩ ∧
    ¬((2 : Rat)/3 < 2/3) := by
  refine ⟨by decide, by decide, by decide⟩

/-- C2 (amended): on the §8 scenario, a non-empty `pinnedIds` that does not
contain F (here `[L.node_id]`) makes the merge pass fold F into R, and the
resulting replacement score 1/2 is strictly less than the 2/3 obtained with
`pinnedIds = [F.node_id]`. -/
theorem scenario_merge_score_lt_pinned :
    computeGraphScoresFromGraphData scenarioGraph ["L"] =
      Except.ok ⟨1/2, 2/3⟩ ∧
    computeGraphScoresFromGraphData scenarioGraph ["F"] =
      Except.ok ⟨2/3, 5/6⟩ ∧
    ((1 : Rat)/2 < 2/3) := by
  refine ⟨by decide, by decide, by decide⟩

/-- C3 (code bug): on the empty graph (zero nodes, zero edges) the engine does
not return a `ScoreResult`: `computeInfluence` reads `A[0].length` of the
empty matrix, which throws a `TypeError` rather than the claimed scores. -/
theorem compute_empty_graph_type_error :
    computeGraphScoresFromGraphData ⟨[], []⟩ [] =
      Except.error JsError.typeError := by
  decide

/-- C4 (counterexample): the edge-free graph whose only node is the logit L
(`token_prob = 1`) yields `completenessScore = 1`, not 0: with a zero matrix
the output influence equals the logit weights, so the completeness ratio is
`Σ lw / Σ lw = 1`. -/
theorem edgeless_completeness_one_counterexample :
    computeGraphScoresFromGraphData ⟨[nodeL], []⟩ [] = Except.ok ⟨0, 1⟩ ∧
    (1 : Rat) ≠ 0 := by
  refine ⟨by decide, by decide⟩

/-- C6 (counterexample): the row `[1e-11]` has a non-zero entry but its
absolute sum is below `ε = 1e-10`, so the clamped denominator is `ε` and the
normalized row sums to 1/10, not 1. -/
theorem normalize_tiny_row_counterexample :
    normalizeMatrix [[1/100000000000]] = [[1/10]] ∧
    ((normalizeMatrix [[1/100000000000]]).getD 0 []).sum ≠ 1 ∧
    ((1 : Rat)/100000000000) ≠ 0 := by
  refine ⟨by decide, by decide, by decide⟩

/-- C7 (counterexample): two permutations of the same node list produce
different scores.  The error nodes R1 and R2 share the sort key
(`reconstruction-error`, layer 3, ctx 0, feature 0); the stable sort keeps
their input order, the merge pass folds the unpinned feature F into whichever
of them ends up later, and the two choices give replacement scores 0 and 1/2
respectively. -/
theorem perm_changes_scores_counterexample :
    computeGraphScoresFromGraphData
        ⟨[nodeP, nodeF, nodeR1, nodeR2, nodeE, nodeL], dupKeyLinks⟩ ["P"] =
      Except.ok ⟨0, 1/2⟩ ∧
    computeGraphScoresFromGraphData
        ⟨[nodeP, nodeF, nodeR2, nodeR1, nodeE, nodeL], dupKeyLinks⟩ ["P"] =
      Except.ok ⟨1/2, 2/3⟩ ∧
    [nodeP, nodeF, nodeR2, nodeR1, nodeE, nodeL].Perm
      [nodeP, nodeF, nodeR1, nodeR2, nodeE, nodeL] := by
  refine ⟨by decide, by decide, ?_⟩
  exact List.Perm.cons nodeP (List.Perm.cons nodeF
    (List.Perm.swap nodeR1 nodeR2 [nodeE, nodeL]))

/-- C4 (amended): for every graph with a non-empty node list and an empty
edge list, and any `pinnedIds`, the replacement score is 0, and the
completeness score is 0 exactly when the logit `token_prob`s sum to 0 —
otherwise it is 1 (the counterexample shows it is not always 0). -/
theorem edgeless_scores (g : WorkerGraph) (p : List String)
    (hE : g.links = []) (hN : g.nodes ≠ []) :
    computeGraphScoresFromGraphData g p = Except.ok ⟨0,
      if ((g.nodes.filter (fun nd => nd.feature_type == "logit")).map
        (fun nd => nd.token_prob)).sum = 0 then 0 else 1⟩ := by
  have hn0 : 0 < (sortNodes g.nodes).length := by
    rw [sortNodes, List.length_insertionSort]
    exact List.length_pos.2 hN
  have hkn : countType (sortNodes g.nodes) "logit" ≤ (sortNodes g.nodes).length :=
    List.length_filter_le _ _
  have hrec : reconstructAdjacencyMatrix g.nodes [] =
      (zeroMatrix (sortNodes g.nodes).length, sortNodes g.nodes) := by
    simp only [reconstructAdjacencyMatrix, List.foldl_nil]
  have hzlen : (zeroMatrix (sortNodes g.nodes).length).length =
      (sortNodes g.nodes).length := by
    rw [zeroMatrix, List.length_replicate]
  have hlwlen := buildLogitWeights_length (sortNodes g.nodes)
    (sortNodes g.nodes).length hkn
  have hadj : (if 0 < p.length
      then mergePass (sortNodes g.nodes) p (zeroMatrix (sortNodes g.nodes).length)
      else zeroMatrix (sortNodes g.nodes).length) =
      zeroMatrix (sortNodes g.nodes).length := by
    split
    · exact mergePass_zeroMatrix _ _ _
    · rfl
  have hfrac : ∀ a b : Nat,
      (zeroMatrix (sortNodes g.nodes).length).map
        (fun row => 1 - sliceSum row a b) =
      List.replicate (sortNodes g.nodes).length (1:Rat) := by
    intro a b
    rw [zeroMatrix, List.map_replicate, sliceSum_replicate_zero, sub_zero]
  have hsum : (buildLogitWeights (sortNodes g.nodes) (sortNodes g.nodes).length).sum =
      ((g.nodes.filter (fun nd => nd.feature_type == "logit")).map
        (fun nd => nd.token_prob)).sum := by
    rw [buildLogitWeights_sum _ _ hkn]
    exact List.Perm.sum_eq (List.Perm.map _
      ((List.perm_insertionSort nodeLE g.nodes).filter _))
  simp only [computeGraphScoresFromGraphData, hE, hrec]
  rw [hadj, hzlen, normalizeMatrix_zeroMatrix,
    computeInfluence_zeroMatrix _ _ hn0]
  dsimp only
  rw [sliceSum_replicate_zero, sliceSum_replicate_zero, hfrac,
    zipWith_add_replicate_zero_left _ _ hlwlen,
    zipWith_one_mul_sum _ _ hlwlen, hsum]
  by_cases hS : ((g.nodes.filter (fun nd => nd.feature_type == "logit")).map
      (fun nd => nd.token_prob)).sum = 0
  · rw [if_pos (⟨rfl, by norm_num⟩ : (0:Rat) = 0 ∧ (0:Rat) + 0 = 0),
      if_pos ⟨hS, hS⟩, if_pos hS]
  · rw [if_pos (⟨rfl, by norm_num⟩ : (0:Rat) = 0 ∧ (0:Rat) + 0 = 0),
      if_neg (fun hc => hS hc.1), if_neg hS, div_self hS]

/-- C4 (witness): the edge-free graph with the single embedding node E and the
logit L with `token_prob = 1`: the sum of logit probabilities is 1 ≠ 0, so the
scores are (0, 1). -/
theorem edgeless_scores_witness :
    computeGraphScoresFromGraphData ⟨[nodeE, nodeL], []⟩ ["x"] =
      Except.ok ⟨0, 1⟩ := by
  have h := edgeless_scores ⟨[nodeE, nodeL], []⟩ ["x"] rfl (by decide)
  rw [h]
  rw [if_neg (by decide)]

/-- C5: on any non-empty matrix `r₀ :: rest` (with `n = r₀.length`, the
`A[0].length` the code reads), `computeInfluence` throws the convergence
error with message "Influence computation failed to converge after 1000
iterations" exactly when the iterate is still non-zero after 1000
applications of the matrix; and when the iterate does reach zero within the
ceiling it returns the accumulated influence sum (the seed plus the sum of
all subsequent iterates). -/
theorem computeInfluence_convergence_spec (r₀ : List Rat) (rest : Mat)
    (lw : List Rat) :
    (computeInfluence (r₀ :: rest) lw 1000 =
        Except.error (JsError.convergence
          "Influence computation failed to converge after 1000 iterations") ↔
      iterApply (r₀ :: rest) r₀.length 1000
          (vecMat lw (r₀ :: rest) r₀.length) ≠
        List.replicate r₀.length 0) ∧
    (iterApply (r₀ :: rest) r₀.length 1000
        (vecMat lw (r₀ :: rest) r₀.length) =
      List.replicate r₀.length 0 →
      computeInfluence (r₀ :: rest) lw 1000 =
        Except.ok (addVec (vecMat lw (r₀ :: rest) r₀.length)
          (tailSum (r₀ :: rest) r₀.length 1000
            (vecMat lw (r₀ :: rest) r₀.length)))) := by
  have hmsg : ("Influence computation failed to converge after " ++
      toString (1000 : Nat) ++ " iterations") =
      "Influence computation failed to converge after 1000 iterations" := by decide
  have hunfold : computeInfluence (r₀ :: rest) lw 1000 =
      influenceLoop (r₀ :: rest) r₀.length 1000 1000
        (vecMat lw (r₀ :: rest) r₀.length)
        (vecMat lw (r₀ :: rest) r₀.length) := rfl
  constructor
  · constructor
    · intro herr
      intro hz
      rw [hunfold, influenceLoop_ok _ _ 1000 1000 _ _ (vecMat_length _ _ _)
        (vecMat_length _ _ _) hz] at herr
      cases herr
    · intro hne
      rw [hunfold, influenceLoop_error _ _ 1000 1000 _ _ (vecMat_length _ _ _) hne,
        hmsg]
  · intro hz
    rw [hunfold, influenceLoop_ok _ _ 1000 1000 _ _ (vecMat_length _ _ _)
      (vecMat_length _ _ _) hz]

/-- C5 (witness): on the 1×1 zero matrix with logit weight 0 the seed iterate
is already zero, so `computeInfluence` converges immediately and returns the
zero influence vector. -/
theorem computeInfluence_convergence_spec_witness :
    computeInfluence [[(0:Rat)]] [0] 1000 = Except.ok [0] := by
  have h := (computeInfluence_convergence_spec [(0:Rat)] [] [0]).2
  simp only [List.length_cons, List.length_nil] at h
  have hseed : vecMat [(0:Rat)] [[(0:Rat)]] 1 = List.replicate 1 0 := by decide
  rw [hseed] at h
  have h2 := h (iterApply_replicate_zero [[(0:Rat)]] 1 1000)
  rw [tailSum_replicate_zero, addVec_replicate_replicate] at h2
  simpa using h2

/-- C6 (amended): `normalizeMatrix` maps each row to its entrywise absolute
values divided by `max(Σ |row|, ε)`; every row whose absolute sum is at least
`ε = 1e-10` normalizes to a row summing to exactly 1 (rows with a non-zero
entry but absolute sum below `ε` do not — see the counterexample), and every
all-zero row stays all-zero. -/
theorem normalizeMatrix_spec (M : Mat) (i : Nat) (_hi : i < M.length) :
    rowD (normalizeMatrix M) i =
      (rowD M i).map
        (fun v => |v| / max ((rowD M i).map (fun w => |w|)).sum eps) ∧
    (eps ≤ ((rowD M i).map (fun w => |w|)).sum →
      (rowD (normalizeMatrix M) i).sum = 1) ∧
    ((∀ v ∈ rowD M i, v = 0) → ∀ v ∈ rowD (normalizeMatrix M) i, v = 0) := by
  have hrow : rowD (normalizeMatrix M) i = normalizeRow (rowD M i) :=
    rowD_map M normalizeRow rfl i
  refine ⟨?_, ?_, ?_⟩
  · rw [hrow]
    simp only [normalizeRow, List.map_map]
    rfl
  · intro hS
    rw [hrow]
    simp only [normalizeRow, sum_map_div, max_eq_left hS]
    have heps : (0:Rat) < eps := by decide
    exact div_self (by linarith)
  · intro h0 v hv
    rw [hrow] at hv
    simp only [normalizeRow, List.map_map] at hv
    obtain ⟨w, hw, rfl⟩ := List.mem_map.1 hv
    rw [Function.comp_apply, h0 w hw]
    simp

/-- C6 (witness): the row `[2, 2]` has absolute sum 4 ≥ ε, and its normalized
row sums to 1. -/
theorem normalizeMatrix_spec_witness :
    0 < ([[(2:Rat), 2]] : Mat).length ∧
    (rowD (normalizeMatrix [[(2:Rat), 2]]) 0).sum = 1 :=
  ⟨by decide, (normalizeMatrix_spec [[(2:Rat), 2]] 0 (by decide)).2.1 (by decide)⟩

/-- C8: when the merge pass processes an unpinned transcoder-feature node at
index `f` whose `(layer, ctx_idx)` key has no matching reconstruction-error
node, the step is exactly `zeroRowAndColumn`: row `f` and column `f` become
zero and every entry outside that row and column is unchanged. -/
theorem merge_no_error_zeroes_row_col (sNodes : List CLTGraphNode)
    (pinned : List String) (M : Mat) (n f : Nat) (nd : CLTGraphNode)
    (hft : nd.feature_type = "cross layer transcoder")
    (hpin : pinned.contains nd.node_id = false)
    (herr : errorIndexByKey sNodes (nodeKey nd) = none)
    (hsq : SquareMat M n) (_hf : f < n) :
    mergeStep sNodes pinned M (f, nd) = zeroRowAndColumn M f ∧
    ∀ r c, r < n → c < n →
      entry (mergeStep sNodes pinned M (f, nd)) r c =
        if r = f ∨ c = f then 0 else entry M r c := by
  have hstep := mergeStep_eq_none sNodes pinned M f nd hft hpin herr
  refine ⟨hstep, fun r c hr hc => ?_⟩
  rw [hstep, entry_zeroRowAndColumn M n f r c hsq hr hc]

/-- C8 (witness): a transcoder node whose key `3|0` has no error node in the
one-node list; the step zeroes exactly row 0 and column 0 of a 2×2 matrix and
leaves entry (1,1) unchanged. -/
theorem merge_no_error_zeroes_row_col_witness :
    mergeStep [nodeF] ["x"] [[(1:Rat), 2], [3, 4]] (0, nodeF) =
      zeroRowAndColumn [[(1:Rat), 2], [3, 4]] 0 ∧
    entry (mergeStep [nodeF] ["x"] [[(1:Rat), 2], [3, 4]] (0, nodeF)) 1 1 =
      entry [[(1:Rat), 2], [3, 4]] 1 1 := by
  have h := merge_no_error_zeroes_row_col [nodeF] ["x"] [[(1:Rat), 2], [3, 4]]
    2 0 nodeF (by decide) (by decide) (by decide) ⟨by decide, by decide⟩ (by decide)
  have h2 := h.2 1 1 (by decide) (by decide)
  rw [if_neg (by decide)] at h2
  exact ⟨h.1, h2⟩

/-- C9: when reconstruction-error nodes share a `(layer, ctx_idx)` key, the
`errorIndexByKey` lookup holds the highest index among them (the last one
written while building the table), and the merge step for an unpinned
transcoder-feature node with that key folds its column into that highest
index, not any earlier one. -/
theorem merge_targets_highest_error_index (sNodes : List CLTGraphNode)
    (pinned : List String) (M : Mat) (k : String) (i j f : Nat)
    (nd : CLTGraphNode)
    (_hij : i ≠ j)
    (_hi : errAt sNodes i k = true)
    (hj : errAt sNodes j k = true)
    (hmax : ∀ m, errAt sNodes m k = true → m ≤ j)
    (hft : nd.feature_type = "cross layer transcoder")
    (hpin : pinned.contains nd.node_id = false)
    (hkey : nodeKey nd = k) :
    errorIndexByKey sNodes k = some j ∧
    mergeStep sNodes pinned M (f, nd) =
      zeroRowAndColumn (addColInto M j f) f := by
  obtain ⟨ndj, hgetj, hftj, hkeyj⟩ := (errAt_iff sNodes j k).1 hj
  have hidx : errorIndexByKey sNodes k = some j := by
    have hfold := errFold_last k sNodes 0 none j ndj hgetj ⟨hftj, hkeyj⟩
      (fun m nd' hm hpred =>
        hmax m ((errAt_iff sNodes m k).2 ⟨nd', hm, hpred.1, hpred.2⟩))
    show (List.enumFrom 0 sNodes).foldl _ none = some j
    rw [hfold]
    norm_num
  refine ⟨hidx, ?_⟩
  exact mergeStep_eq_some sNodes pinned M f j nd hft hpin (by rw [hkey]; exact hidx)

/-- C9 (witness): with the two error nodes R1 (index 0) and R2 (index 1)
sharing key `3|0`, the lookup returns index 1 and the unpinned feature F
merges into column 1. -/
theorem merge_targets_highest_error_index_witness :
    errorIndexByKey [nodeR1, nodeR2] "3|0" = some 1 ∧
    mergeStep [nodeR1, nodeR2] ["x"] [[(1:Rat), 2], [3, 4]] (0, nodeF) =
      zeroRowAndColumn (addColInto [[(1:Rat), 2], [3, 4]] 1 0) 0 := by
  refine merge_targets_highest_error_index [nodeR1, nodeR2] ["x"]
    [[(1:Rat), 2], [3, 4]] "3|0" 0 1 0 nodeF (by decide) (by decide) (by decide)
    ?_ (by decide) (by decide) (by decide)
  intro m hm
  rcases m with - | - | m
  · omega
  · omega
  · simp [errAt] at hm

/-- C10: an edge from an unpinned transcoder-feature node F1 to a later
unpinned transcoder-feature node F2 (both with matching error nodes)
contributes to no entry of the matrix after the merge pass completes: the
pass produces the same matrix whatever value sits at entry
(row F2, column F1) of the input. -/
theorem merge_feature_edge_no_contribution
    (sNodes : List CLTGraphNode) (pinned : List String) (M : Mat)
    (n f₁ f₂ : Nat) (v : Rat) (nd₁ nd₂ : CLTGraphNode)
    (_hp : pinned ≠ [])
    (hsq : SquareMat M n)
    (_hlt : f₁ < f₂)
    (_hnd₁ : sNodes[f₁]? = some nd₁)
    (_hft₁ : nd₁.feature_type = "cross layer transcoder")
    (_hpin₁ : pinned.contains nd₁.node_id = false)
    (_herr₁ : (errorIndexByKey sNodes (nodeKey nd₁)).isSome = true)
    (hnd₂ : sNodes[f₂]? = some nd₂)
    (hft₂ : nd₂.feature_type = "cross layer transcoder")
    (hpin₂ : pinned.contains nd₂.node_id = false)
    (_herr₂ : (errorIndexByKey sNodes (nodeKey nd₂)).isSome = true) :
    mergePass sNodes pinned (setEntry M f₂ f₁ v) = mergePass sNodes pinned M := by
  unfold mergePass
  apply mergeFold_eq sNodes pinned n f₂
  · exact square_setEntry M n f₂ f₁ v hsq
  · exact hsq
  · intro r hr
    exact rowD_setEntry_ne M f₂ f₁ v r hr
  · exact ⟨nd₂, List.mk_mem_enum_iff_getElem?.2 hnd₂, hft₂, hpin₂⟩

/-- C7 (amended): when all nodes have pairwise distinct sort keys
(feature-type priority, layer number, ctx_idx, feature), permuting the input
node list does not change the result of `compute`: the canonical sort is then
uniquely determined, so the whole pipeline is literally identical.  (When two
nodes share a sort key the stable sort preserves input order and the scores
can change — see the counterexample.) -/
theorem compute_perm_invariant_of_distinct_keys (l₁ l₂ : List CLTGraphNode)
    (links : List CLTGraphLink) (p : List String)
    (hperm : l₁.Perm l₂)
    (hkeys : ∀ a ∈ l₁, ∀ b ∈ l₁, getSortKey a = getSortKey b → a = b) :
    computeGraphScoresFromGraphData ⟨l₁, links⟩ p =
      computeGraphScoresFromGraphData ⟨l₂, links⟩ p := by
  have hs := sortNodes_eq_of_perm l₁ l₂ hperm hkeys
  simp only [computeGraphScoresFromGraphData]
  rw [reconstruct_eq_of_sort_eq l₁ l₂ links hs]

/-- C7 (witness): swapping the two distinct-key nodes E and L in the input
list leaves the scores unchanged. -/
theorem compute_perm_invariant_of_distinct_keys_witness :
    computeGraphScoresFromGraphData ⟨[nodeE, nodeL], [⟨"E", "L", 2⟩]⟩ ["x"] =
      computeGraphScoresFromGraphData ⟨[nodeL, nodeE], [⟨"E", "L", 2⟩]⟩ ["x"] :=
  compute_perm_invariant_of_distinct_keys [nodeE, nodeL] [nodeL, nodeE]
    [⟨"E", "L", 2⟩] ["x"] (List.Perm.swap nodeL nodeE []) (by decide)

/-- C10 (witness): with features P (index 0, key `1|0`) and F (index 1,
key `3|0`) and matching error nodes Q and R, writing 7 into entry (1, 0) of
the sample matrix does not change the outcome of the merge pass. -/
theorem merge_feature_edge_no_contribution_witness :
    mergePass [nodeP, nodeF, nodeQ, nodeR] ["x"] (setEntry sampleMat 1 0 7) =
      mergePass [nodeP, nodeF, nodeQ, nodeR] ["x"] sampleMat :=
  merge_feature_edge_no_contribution [nodeP, nodeF, nodeQ, nodeR] ["x"]
    sampleMat 4 0 1 7 nodeP nodeF (by decide) ⟨by decide, by decide⟩ (by decide)
    (by decide) (by decide) (by decide) (by decide) (by decide) (by decide)
    (by decide) (by decide)

end Score
